import Mathlib

/-!
Shallow embedding of `src/uri/builder.rs` (the `uri::Builder` of the http
crate) and proofs about it.

The builder is generic over its collaborators, which live outside the
translated file: the three validated component types (`Scheme`,
`Authority`, `PathAndQuery`), the error type, and the `Uri` type.  We
model them as type parameters `S A P E U`.  The conversions
(`HttpTryFrom` / `http_try_into`) are pure functions of their input
alone, modelled as `T → Except E S` and friends; the finalizer
(`Parts::http_try_into` producing a `Uri`) is a parameter
`finalize : Parts S A P → Except E U`, and `Uri::into_parts` is a
parameter `intoParts : U → Parts S A P`.
-/

section UriBuilder

variable {S A P E : Type}

/-- Decidable equality for `Except`, needed to evaluate the embedding on
concrete inputs. -/
instance exceptDecEq {E X : Type} [DecidableEq E] [DecidableEq X] :
    DecidableEq (Except E X) := fun a b =>
  match a, b with
  | .error e₁, .error e₂ =>
    if h : e₁ = e₂ then .isTrue (by simp [h]) else .isFalse (by simp [h])
  | .error _, .ok _ => .isFalse (by simp)
  | .ok _, .error _ => .isFalse (by simp)
  | .ok x, .ok y =>
    if h : x = y then .isTrue (by simp [h]) else .isFalse (by simp [h])

/-- Modelled from the spec: `Parts` (not under `src/`) is a plain aggregate
with three independent optional slots, `scheme`, `authority` and
`path_and_query`; its default value has all three unset.  The field names
and `Parts::default()` are also pinned by their uses in
`src/uri/builder.rs`. -/
structure Parts (S A P : Type) : Type where
  scheme : Option S
  authority : Option A
  path_and_query : Option P
  deriving DecidableEq, Repr

/-- Modelled from the spec: the default `Parts` has all three slots unset. -/
def Parts.default : Parts S A P := ⟨none, none, none⟩

/-- Embeds `struct Builder { parts: Result<Parts> }` from `src/uri/builder.rs`
lines 6-9.  `Result<Parts>` is `Result<Parts, Error>`, embedded as
`Except E (Parts S A P)`.  A builder is Live when `parts` is `ok` and
Poisoned when it is `error`. -/
structure Builder (S A P E : Type) : Type where
  parts : Except E (Parts S A P)
  deriving DecidableEq, Repr

/-- Embeds `impl Default for Builder` from `src/uri/builder.rs` lines 135-142:
`Builder { parts: Ok(Parts::default()) }`. -/
def Builder.default : Builder S A P E := ⟨.ok Parts.default⟩

/-- Embeds `Builder::new` from `src/uri/builder.rs` lines 27-29:
`Builder::default()`. -/
def Builder.new : Builder S A P E := Builder.default

/-- Embeds `impl From<Uri> for Builder` from `src/uri/builder.rs` lines 144-150:
`Builder { parts: Ok(src.into_parts()) }`.  `Uri::into_parts` is an
external collaborator, passed as `intoParts`.  (`from` is a Lean keyword,
hence the name `fromUri`.) -/
def Builder.fromUri {U : Type} (intoParts : U → Parts S A P) (u : U) : Builder S A P E :=
  ⟨.ok (intoParts u)⟩

/-- Embeds `Builder::map` from `src/uri/builder.rs` lines 118-132.  The Rust
closure `F: FnOnce(&mut Parts) -> Result<()>` mutates the parts in place
and returns `Result<()>`; we model it as returning the (possibly updated)
parts together with the `Result<()>`.  If the builder is already
poisoned, `map` returns `self` unchanged without calling `f`; if `f`
fails, `self.parts` is overwritten with the error. -/
def Builder.map (b : Builder S A P E) (f : Parts S A P → Parts S A P × Except E Unit) :
    Builder S A P E :=
  match b.parts with
  | .error _ => b
  | .ok parts =>
    let fr := f parts
    match fr.2 with
    | .error err => ⟨.error err⟩
    | .ok _ => ⟨.ok fr.1⟩

/-- The closure of `Builder::scheme` (`src/uri/builder.rs` lines 44-47):
`parts.scheme = Some(scheme.http_try_into()?); Ok(())`.  The `?` returns
before the assignment, so on a failed conversion the parts are untouched.
`conv` is the result of `scheme.http_try_into()`. -/
def schemeSet (conv : Except E S) (parts : Parts S A P) : Parts S A P × Except E Unit :=
  match conv with
  | .error e => (parts, .error e)
  | .ok v => ({ parts with scheme := some v }, .ok ())

/-- The closure of `Builder::authority` (`src/uri/builder.rs` lines 63-66). -/
def authoritySet (conv : Except E A) (parts : Parts S A P) : Parts S A P × Except E Unit :=
  match conv with
  | .error e => (parts, .error e)
  | .ok v => ({ parts with authority := some v }, .ok ())

/-- The closure of `Builder::path_and_query` (`src/uri/builder.rs` lines 82-85). -/
def pathAndQuerySet (conv : Except E P) (parts : Parts S A P) : Parts S A P × Except E Unit :=
  match conv with
  | .error e => (parts, .error e)
  | .ok v => ({ parts with path_and_query := some v }, .ok ())

/-- Embeds `Builder::scheme` from `src/uri/builder.rs` lines 41-48.  `tryFrom`
is the `HttpTryFrom<T>` instance for `Scheme`, a pure function of the
input `t` alone. -/
def Builder.scheme {T : Type} (tryFrom : T → Except E S) (b : Builder S A P E) (t : T) :
    Builder S A P E :=
  b.map (schemeSet (tryFrom t))

/-- Embeds `Builder::authority` from `src/uri/builder.rs` lines 60-67. -/
def Builder.authority {T : Type} (tryFrom : T → Except E A) (b : Builder S A P E) (t : T) :
    Builder S A P E :=
  b.map (authoritySet (tryFrom t))

/-- Embeds `Builder::path_and_query` from `src/uri/builder.rs` lines 79-86. -/
def Builder.path_and_query {T : Type} (tryFrom : T → Except E P) (b : Builder S A P E) (t : T) :
    Builder S A P E :=
  b.map (pathAndQuerySet (tryFrom t))

/-- Embeds `Builder::build` from `src/uri/builder.rs` lines 112-116:
`Ok(self.parts?.http_try_into()?)`, with the two `?` desugared to early
returns.  `finalize` is the external `Parts → Uri` conversion
(`HttpTryFrom<Parts> for Uri`). -/
def Builder.build {U : Type} (b : Builder S A P E) (finalize : Parts S A P → Except E U) :
    Except E U :=
  match b.parts with
  | .error e => .error e
  | .ok p =>
    match finalize p with
    | .error e => .error e
    | .ok u => .ok u

/-- One setter call, carrying the result of `http_try_into()` on its
input.  Each `HttpTryFrom` conversion is a pure function of the input
alone, so recording its result loses nothing. -/
inductive SetterCall (S A P E : Type) : Type where
  | scheme (conv : Except E S)
  | authority (conv : Except E A)
  | path_and_query (conv : Except E P)
  deriving DecidableEq, Repr

/-- Applying one recorded setter call to a builder: dispatches to the
corresponding setter closure through `Builder.map`. -/
def Builder.applyCall (b : Builder S A P E) : SetterCall S A P E → Builder S A P E
  | .scheme conv => b.map (schemeSet conv)
  | .authority conv => b.map (authoritySet conv)
  | .path_and_query conv => b.map (pathAndQuerySet conv)

/-- Applying a sequence of setter calls in program order. -/
def Builder.applyCalls (b : Builder S A P E) (cs : List (SetterCall S A P E)) :
    Builder S A P E :=
  cs.foldl Builder.applyCall b

/-- The conversion error carried by a call, if its conversion failed. -/
def SetterCall.convError : SetterCall S A P E → Option E
  | .scheme (.error e) => some e
  | .authority (.error e) => some e
  | .path_and_query (.error e) => some e
  | _ => none

/-- Every call in the sequence converted successfully. -/
def allOk (cs : List (SetterCall S A P E)) : Prop :=
  ∀ c ∈ cs, c.convError = none

instance (cs : List (SetterCall S A P E)) [DecidableEq E] : Decidable (allOk cs) :=
  List.decidableBAll _ cs

/-- The error of the first failing call in program order, if any. -/
def firstError : List (SetterCall S A P E) → Option E
  | [] => none
  | c :: cs =>
    match c.convError with
    | some e => some e
    | none => firstError cs

/-- The successfully converted scheme value a call stores, if it is a
successful scheme call. -/
def SetterCall.schemeVal : SetterCall S A P E → Option S
  | .scheme (.ok s) => some s
  | _ => none

/-- The successfully converted authority value a call stores, if any. -/
def SetterCall.authorityVal : SetterCall S A P E → Option A
  | .authority (.ok a) => some a
  | _ => none

/-- The successfully converted path-and-query value a call stores, if any. -/
def SetterCall.pathAndQueryVal : SetterCall S A P E → Option P
  | .path_and_query (.ok q) => some q
  | _ => none

/-- Overwrite semantics of one optional write: a present new value
replaces the old, an absent one keeps it. -/
def updSlot {X : Type} : Option X → Option X → Option X
  | some x, _ => some x
  | none, old => old

/-- The value of the last call in the sequence that writes the slot
extracted by `f`, if any (last-write-wins). -/
def lastVal {X : Type} (f : SetterCall S A P E → Option X) :
    List (SetterCall S A P E) → Option X
  | [] => none
  | c :: cs => updSlot (lastVal f cs) (f c)

/-- Whether two `Parts` agree on the slot targeted by a call. -/
def SetterCall.storedEq : SetterCall S A P E → Parts S A P → Parts S A P → Prop
  | .scheme _, p, q => p.scheme = q.scheme
  | .authority _, p, q => p.authority = q.authority
  | .path_and_query _, p, q => p.path_and_query = q.path_and_query

/-! ### Helper lemmas -/

theorem map_error (b : Builder S A P E) (e : E) (h : b.parts = .error e)
    (f : Parts S A P → Parts S A P × Except E Unit) : b.map f = b := by
  cases b with
  | mk parts => cases parts <;> simp_all [Builder.map]

theorem applyCall_error (b : Builder S A P E) (e : E) (h : b.parts = .error e)
    (c : SetterCall S A P E) : b.applyCall c = b := by
  cases c <;> exact map_error b e h _

theorem applyCalls_error (b : Builder S A P E) (e : E) (h : b.parts = .error e)
    (cs : List (SetterCall S A P E)) : b.applyCalls cs = b := by
  induction cs with
  | nil => rfl
  | cons c cs ih =>
    show Builder.applyCalls (b.applyCall c) cs = b
    rw [applyCall_error b e h c]
    exact ih

@[simp]
theorem applyCall_scheme_ok (p : Parts S A P) (s : S) :
    Builder.applyCall (⟨.ok p⟩ : Builder S A P E) (.scheme (.ok s)) =
      ⟨.ok { p with scheme := some s }⟩ := rfl

@[simp]
theorem applyCall_scheme_error (p : Parts S A P) (e : E) :
    Builder.applyCall ⟨.ok p⟩ (.scheme (.error e)) = ⟨.error e⟩ := rfl

@[simp]
theorem applyCall_authority_ok (p : Parts S A P) (a : A) :
    Builder.applyCall (⟨.ok p⟩ : Builder S A P E) (.authority (.ok a)) =
      ⟨.ok { p with authority := some a }⟩ := rfl

@[simp]
theorem applyCall_authority_error (p : Parts S A P) (e : E) :
    Builder.applyCall ⟨.ok p⟩ (.authority (.error e)) = ⟨.error e⟩ := rfl

@[simp]
theorem applyCall_path_and_query_ok (p : Parts S A P) (q : P) :
    Builder.applyCall (⟨.ok p⟩ : Builder S A P E) (.path_and_query (.ok q)) =
      ⟨.ok { p with path_and_query := some q }⟩ := rfl

@[simp]
theorem applyCall_path_and_query_error (p : Parts S A P) (e : E) :
    Builder.applyCall ⟨.ok p⟩ (.path_and_query (.error e)) = ⟨.error e⟩ := rfl

@[simp]
theorem updSlot_some {X : Type} (x : X) (old : Option X) : updSlot (some x) old = some x := rfl

@[simp]
theorem updSlot_none {X : Type} (old : Option X) : updSlot none old = old := rfl

theorem updSlot_assoc {X : Type} (a b c : Option X) :
    updSlot (updSlot a b) c = updSlot a (updSlot b c) := by
  cases a <;> rfl

/-- Running a sequence whose first failing call carries error `e` from any
Live builder poisons the builder with exactly `e`. -/
theorem applyCalls_firstError (cs : List (SetterCall S A P E)) (e : E)
    (h : firstError cs = some e) (p : Parts S A P) :
    Builder.applyCalls ⟨.ok p⟩ cs = ⟨.error e⟩ := by
  induction cs generalizing p with
  | nil => simp [firstError] at h
  | cons c cs ih =>
    show Builder.applyCalls (Builder.applyCall ⟨.ok p⟩ c) cs = ⟨.error e⟩
    cases c with
    | scheme conv =>
      cases conv with
      | error e' =>
        have he : e' = e := by simpa [firstError, SetterCall.convError] using h
        subst he
        rw [applyCall_scheme_error]
        exact applyCalls_error _ e' rfl cs
      | ok s =>
        rw [applyCall_scheme_ok]
        exact ih (by simpa [firstError, SetterCall.convError] using h) _
    | authority conv =>
      cases conv with
      | error e' =>
        have he : e' = e := by simpa [firstError, SetterCall.convError] using h
        subst he
        rw [applyCall_authority_error]
        exact applyCalls_error _ e' rfl cs
      | ok a =>
        rw [applyCall_authority_ok]
        exact ih (by simpa [firstError, SetterCall.convError] using h) _
    | path_and_query conv =>
      cases conv with
      | error e' =>
        have he : e' = e := by simpa [firstError, SetterCall.convError] using h
        subst he
        rw [applyCall_path_and_query_error]
        exact applyCalls_error _ e' rfl cs
      | ok q =>
        rw [applyCall_path_and_query_ok]
        exact ih (by simpa [firstError, SetterCall.convError] using h) _

/-- Running an all-successful sequence from a Live builder yields a Live
builder whose parts merge the last-written value of each slot over the
starting parts. -/
theorem applyCalls_allOk (cs : List (SetterCall S A P E)) (h : allOk cs) (p : Parts S A P) :
    Builder.applyCalls ⟨.ok p⟩ cs =
      ⟨.ok ⟨updSlot (lastVal SetterCall.schemeVal cs) p.scheme,
            updSlot (lastVal SetterCall.authorityVal cs) p.authority,
            updSlot (lastVal SetterCall.pathAndQueryVal cs) p.path_and_query⟩⟩ := by
  induction cs generalizing p with
  | nil => simp [Builder.applyCalls, lastVal, updSlot]
  | cons c cs ih =>
    have hc : c.convError = none := h c (List.mem_cons_self c cs)
    have hcs : allOk cs := fun x hx => h x (List.mem_cons_of_mem c hx)
    show Builder.applyCalls (Builder.applyCall ⟨.ok p⟩ c) cs = _
    cases c with
    | scheme conv =>
      cases conv with
      | error e => simp [SetterCall.convError] at hc
      | ok s =>
        rw [applyCall_scheme_ok, ih hcs]
        simp [lastVal, SetterCall.schemeVal, SetterCall.authorityVal,
          SetterCall.pathAndQueryVal, updSlot_assoc]
    | authority conv =>
      cases conv with
      | error e => simp [SetterCall.convError] at hc
      | ok a =>
        rw [applyCall_authority_ok, ih hcs]
        simp [lastVal, SetterCall.schemeVal, SetterCall.authorityVal,
          SetterCall.pathAndQueryVal, updSlot_assoc]
    | path_and_query conv =>
      cases conv with
      | error e => simp [SetterCall.convError] at hc
      | ok q =>
        rw [applyCall_path_and_query_ok, ih hcs]
        simp [lastVal, SetterCall.schemeVal, SetterCall.authorityVal,
          SetterCall.pathAndQueryVal, updSlot_assoc]

theorem updSlot_none_right {X : Type} (a : Option X) : updSlot a none = a := by
  cases a <;> rfl

theorem build_ok_parts {U : Type} (p : Parts S A P) (finalize : Parts S A P → Except E U) :
    Builder.build ⟨.ok p⟩ finalize = finalize p := by
  show (match finalize p with | .error e => .error e | .ok u => .ok u) = finalize p
  cases finalize p <;> rfl

theorem build_error_parts {U : Type} (e : E) (finalize : Parts S A P → Except E U) :
    Builder.build ⟨.error e⟩ finalize = .error e := rfl

/-! ### Claim theorems -/

/-- C1: for every sequence of setter calls applied to a builder created by
`new()` or `from(uri)`, if at least one setter's input fails conversion,
then `build()` returns an error equal to the conversion error of the first
failing setter in program order; later errors are discarded and the
finalizer is never consulted (the result is the same for every
`finalize`). -/
theorem build_first_error_wins {U : Type} (cs : List (SetterCall S A P E)) (e : E)
    (h : firstError cs = some e) (finalize : Parts S A P → Except E U)
    (intoParts : U → Parts S A P) (u : U) :
    (Builder.applyCalls Builder.new cs).build finalize = .error e ∧
    (Builder.applyCalls (Builder.fromUri intoParts u) cs).build finalize = .error e := by
  constructor
  · show (Builder.applyCalls ⟨.ok Parts.default⟩ cs).build finalize = .error e
    rw [applyCalls_firstError cs e h]
    exact build_error_parts e finalize
  · show (Builder.applyCalls ⟨.ok (intoParts u)⟩ cs).build finalize = .error e
    rw [applyCalls_firstError cs e h]
    exact build_error_parts e finalize

/-- Witness for C1 at a concrete failing sequence. -/
theorem build_first_error_wins_witness :
    firstError ([SetterCall.scheme (Except.error 3), SetterCall.authority (Except.error 4)] :
        List (SetterCall Nat Nat Nat Nat)) = some 3 ∧
    (Builder.applyCalls Builder.new
        ([SetterCall.scheme (Except.error 3), SetterCall.authority (Except.error 4)] :
          List (SetterCall Nat Nat Nat Nat))).build (fun _ => Except.ok (0 : Nat)) =
      Except.error 3 :=
  ⟨rfl, (build_first_error_wins
    ([SetterCall.scheme (Except.error 3), SetterCall.authority (Except.error 4)] :
      List (SetterCall Nat Nat Nat Nat))
    3 rfl (fun _ => Except.ok 0) (fun _ => Parts.default) 0).1⟩

/-- C2: for every all-successful sequence of setter calls starting from
`new()`, the builder stays Live and its parts hold, slot by slot, the
value of the last call targeting that slot (`none` if never targeted);
`build()` hands exactly those parts to the finalizer. -/
theorem build_last_write_wins {U : Type} (cs : List (SetterCall S A P E)) (h : allOk cs)
    (finalize : Parts S A P → Except E U) :
    (Builder.applyCalls Builder.new cs).parts =
      .ok ⟨lastVal SetterCall.schemeVal cs, lastVal SetterCall.authorityVal cs,
           lastVal SetterCall.pathAndQueryVal cs⟩ ∧
    (Builder.applyCalls Builder.new cs).build finalize =
      finalize ⟨lastVal SetterCall.schemeVal cs, lastVal SetterCall.authorityVal cs,
           lastVal SetterCall.pathAndQueryVal cs⟩ := by
  have key : Builder.applyCalls (Builder.new : Builder S A P E) cs =
      ⟨.ok ⟨lastVal SetterCall.schemeVal cs, lastVal SetterCall.authorityVal cs,
            lastVal SetterCall.pathAndQueryVal cs⟩⟩ := by
    show Builder.applyCalls ⟨.ok Parts.default⟩ cs = _
    rw [applyCalls_allOk cs h Parts.default]
    simp [Parts.default, updSlot_none_right]
  rw [key, build_ok_parts]
  exact ⟨rfl, rfl⟩

/-- Witness for C2: two scheme writes and one authority write; the last
scheme value wins and path-and-query stays unset. -/
theorem build_last_write_wins_witness :
    allOk ([SetterCall.scheme (Except.ok 1), SetterCall.authority (Except.ok 2),
        SetterCall.scheme (Except.ok 3)] : List (SetterCall Nat Nat Nat Nat)) ∧
    (Builder.applyCalls Builder.new
        ([SetterCall.scheme (Except.ok 1), SetterCall.authority (Except.ok 2),
          SetterCall.scheme (Except.ok 3)] : List (SetterCall Nat Nat Nat Nat))).parts =
      .ok ⟨some 3, some 2, none⟩ :=
  ⟨by decide, (build_last_write_wins _ (by decide) (fun _ => Except.ok (0 : Nat))).1⟩

/-- C3: `build()` on a Poisoned builder returns exactly the latched error,
for every finalizer (the finalizer is not consulted); `build()` on a Live
builder returns exactly the finalizer's answer on the current parts, with
no pre-validation by the builder.  In both cases the single returned
`Except` carries at most one error. -/
theorem build_poisoned_or_finalizer {U : Type} (b : Builder S A P E)
    (finalize : Parts S A P → Except E U) :
    (∀ e, b.parts = .error e → b.build finalize = .error e) ∧
    (∀ p, b.parts = .ok p → b.build finalize = finalize p) := by
  cases b with
  | mk parts =>
    constructor
    · intro e he
      dsimp at he
      subst he
      exact build_error_parts e finalize
    · intro p hp
      dsimp at hp
      subst hp
      exact build_ok_parts p finalize

/-- Witness for C3: a poisoned builder surfaces its latched error, a live
builder surfaces the finalizer's answer. -/
theorem build_poisoned_or_finalizer_witness :
    (⟨.error 7⟩ : Builder Nat Nat Nat Nat).parts = .error 7 ∧
    Builder.build (⟨.error 7⟩ : Builder Nat Nat Nat Nat)
      (fun p => Except.ok p.scheme) = .error 7 ∧
    (⟨.ok ⟨some 1, none, none⟩⟩ : Builder Nat Nat Nat Nat).parts = .ok ⟨some 1, none, none⟩ ∧
    Builder.build (⟨.ok ⟨some 1, none, none⟩⟩ : Builder Nat Nat Nat Nat)
      (fun p => Except.ok p.scheme) = .ok (some 1) :=
  ⟨rfl,
   (build_poisoned_or_finalizer _ (fun p => Except.ok p.scheme)).1 7 rfl,
   rfl,
   (build_poisoned_or_finalizer _ (fun p => Except.ok p.scheme)).2 ⟨some 1, none, none⟩ rfl⟩

/-- C4: poisoning is monotone.  A poisoned builder is returned unchanged
by every subsequent sequence of setter calls, whatever their inputs, so
the latched error is preserved identically and no call can revive the
builder. -/
theorem poisoned_monotone (b : Builder S A P E) (e : E) (h : b.parts = .error e)
    (cs : List (SetterCall S A P E)) :
    Builder.applyCalls b cs = b ∧ (Builder.applyCalls b cs).parts = .error e := by
  refine ⟨applyCalls_error b e h cs, ?_⟩
  rw [applyCalls_error b e h cs]
  exact h

/-- Witness for C4: a builder poisoned with error 5 survives a later valid
and a later invalid call unchanged. -/
theorem poisoned_monotone_witness :
    (⟨.error 5⟩ : Builder Nat Nat Nat Nat).parts = .error 5 ∧
    Builder.applyCalls (⟨.error 5⟩ : Builder Nat Nat Nat Nat)
        [SetterCall.scheme (Except.ok 1), SetterCall.authority (Except.error 9)] =
      ⟨.error 5⟩ :=
  ⟨rfl,
   (poisoned_monotone _ 5 rfl
     [SetterCall.scheme (Except.ok 1), SetterCall.authority (Except.error 9)]).1⟩

/-- C5: round-trip.  If the decompose/finalizer collaborators satisfy
their lossless-split contract at `u` (`finalize (intoParts u) = ok u`),
then the builder constructed by `from(u)` with no setter calls applied
builds back exactly `u`. -/
theorem fromUri_roundtrip {U : Type} (intoParts : U → Parts S A P)
    (finalize : Parts S A P → Except E U) (u : U)
    (h : finalize (intoParts u) = .ok u) :
    (Builder.fromUri intoParts u).build finalize = .ok u := by
  show Builder.build ⟨.ok (intoParts u)⟩ finalize = .ok u
  rw [build_ok_parts, h]

/-- Witness for C5 with the identity decomposition and an accepting
finalizer on a concrete parts value. -/
theorem fromUri_roundtrip_witness :
    (Except.ok (id (⟨some 2, none, some 5⟩ : Parts Nat Nat Nat)) :
        Except Nat (Parts Nat Nat Nat)) = Except.ok ⟨some 2, none, some 5⟩ ∧
    (Builder.fromUri (E := Nat) (id : Parts Nat Nat Nat → Parts Nat Nat Nat)
        ⟨some 2, none, some 5⟩).build Except.ok =
      Except.ok (⟨some 2, none, some 5⟩ : Parts Nat Nat Nat) :=
  ⟨rfl, fromUri_roundtrip id Except.ok ⟨some 2, none, some 5⟩ rfl⟩

/-- C6 (counterexample): order-independence fails for arbitrary
permutations of successful calls.  The two lists below are permutations
of one another, every call succeeds, and they target the same slots with
the same values, yet `build()` differs: last-write-wins makes the second
scheme write of each order the surviving one. -/
theorem perm_not_order_independent :
    ([SetterCall.scheme (Except.ok 0), SetterCall.scheme (Except.ok 1)] :
        List (SetterCall Nat Nat Nat Nat)).Perm
      [SetterCall.scheme (Except.ok 1), SetterCall.scheme (Except.ok 0)] ∧
    allOk ([SetterCall.scheme (Except.ok 0), SetterCall.scheme (Except.ok 1)] :
        List (SetterCall Nat Nat Nat Nat)) ∧
    allOk ([SetterCall.scheme (Except.ok 1), SetterCall.scheme (Except.ok 0)] :
        List (SetterCall Nat Nat Nat Nat)) ∧
    (Builder.applyCalls Builder.new
        ([SetterCall.scheme (Except.ok 0), SetterCall.scheme (Except.ok 1)] :
          List (SetterCall Nat Nat Nat Nat))).build
        (fun p => (Except.ok p.scheme : Except Nat (Option Nat))) ≠
      (Builder.applyCalls Builder.new
          ([SetterCall.scheme (Except.ok 1), SetterCall.scheme (Except.ok 0)] :
            List (SetterCall Nat Nat Nat Nat))).build
        (fun p => (Except.ok p.scheme : Except Nat (Option Nat))) :=
  ⟨List.Perm.swap _ _ _, by decide, by decide, by decide⟩

/-- C6 (amended): two all-successful call sequences whose last-written
value agrees slot by slot — in particular any two permutations of
successful calls that target pairwise distinct slots — produce equal
builders, hence the same `build()` result (same URI or same finalizer
error) for every finalizer. -/
theorem build_same_last_writes (cs₁ cs₂ : List (SetterCall S A P E))
    (h₁ : allOk cs₁) (h₂ : allOk cs₂)
    (hs : lastVal SetterCall.schemeVal cs₁ = lastVal SetterCall.schemeVal cs₂)
    (ha : lastVal SetterCall.authorityVal cs₁ = lastVal SetterCall.authorityVal cs₂)
    (hq : lastVal SetterCall.pathAndQueryVal cs₁ = lastVal SetterCall.pathAndQueryVal cs₂) :
    Builder.applyCalls Builder.new cs₁ = Builder.applyCalls Builder.new cs₂ ∧
    ∀ (U : Type) (finalize : Parts S A P → Except E U),
      (Builder.applyCalls Builder.new cs₁).build finalize =
        (Builder.applyCalls Builder.new cs₂).build finalize := by
  have key : Builder.applyCalls (Builder.new : Builder S A P E) cs₁ =
      Builder.applyCalls (Builder.new : Builder S A P E) cs₂ := by
    show Builder.applyCalls ⟨.ok Parts.default⟩ cs₁ =
      Builder.applyCalls ⟨.ok Parts.default⟩ cs₂
    rw [applyCalls_allOk cs₁ h₁, applyCalls_allOk cs₂ h₂, hs, ha, hq]
  exact ⟨key, fun U finalize => by rw [key]⟩

/-- Witness for the amended C6: a scheme write and an authority write
commute. -/
theorem build_same_last_writes_witness :
    allOk ([SetterCall.scheme (Except.ok 1), SetterCall.authority (Except.ok 2)] :
        List (SetterCall Nat Nat Nat Nat)) ∧
    allOk ([SetterCall.authority (Except.ok 2), SetterCall.scheme (Except.ok 1)] :
        List (SetterCall Nat Nat Nat Nat)) ∧
    Builder.applyCalls Builder.new
        ([SetterCall.scheme (Except.ok 1), SetterCall.authority (Except.ok 2)] :
          List (SetterCall Nat Nat Nat Nat)) =
      Builder.applyCalls Builder.new
        [SetterCall.authority (Except.ok 2), SetterCall.scheme (Except.ok 1)] :=
  ⟨by decide, by decide,
   (build_same_last_writes
     ([SetterCall.scheme (Except.ok 1), SetterCall.authority (Except.ok 2)] :
       List (SetterCall Nat Nat Nat Nat))
     [SetterCall.authority (Except.ok 2), SetterCall.scheme (Except.ok 1)]
     (by decide) (by decide) rfl rfl rfl).1⟩

/-- C7: frame property.  A successful setter on a Live builder updates
exactly its own slot; the other two slots keep their previous values. -/
theorem setter_frame (b : Builder S A P E) (p : Parts S A P) (h : b.parts = .ok p) :
    (∀ s : S, (b.applyCall (.scheme (.ok s))).parts =
        .ok ⟨some s, p.authority, p.path_and_query⟩) ∧
    (∀ a : A, (b.applyCall (.authority (.ok a))).parts =
        .ok ⟨p.scheme, some a, p.path_and_query⟩) ∧
    (∀ q : P, (b.applyCall (.path_and_query (.ok q))).parts =
        .ok ⟨p.scheme, p.authority, some q⟩) := by
  cases b with
  | mk parts =>
    dsimp at h
    subst h
    exact ⟨fun s => rfl, fun a => rfl, fun q => rfl⟩

/-- Witness for C7: overwriting the scheme of a fully populated parts
leaves authority and path-and-query untouched. -/
theorem setter_frame_witness :
    (⟨.ok ⟨some 1, some 2, some 3⟩⟩ : Builder Nat Nat Nat Nat).parts =
      .ok ⟨some 1, some 2, some 3⟩ ∧
    ((⟨.ok ⟨some 1, some 2, some 3⟩⟩ : Builder Nat Nat Nat Nat).applyCall
        (.scheme (.ok 9))).parts = .ok ⟨some 9, some 2, some 3⟩ :=
  ⟨rfl, (setter_frame _ _ rfl).1 9⟩

/-- C8: a failing setter writes no slot.  The setter closure returns the
parts untouched alongside the conversion error (`?` fires before the
assignment), and the builder transitions to Poisoned carrying exactly
that conversion error, retaining no parts at all. -/
theorem setter_fail_no_write (b : Builder S A P E) (p : Parts S A P) (h : b.parts = .ok p)
    (e : E) :
    (schemeSet (.error e) p).1 = p ∧ b.applyCall (.scheme (.error e)) = ⟨.error e⟩ ∧
    (authoritySet (.error e) p).1 = p ∧ b.applyCall (.authority (.error e)) = ⟨.error e⟩ ∧
    (pathAndQuerySet (.error e) p).1 = p ∧
      b.applyCall (.path_and_query (.error e)) = ⟨.error e⟩ := by
  cases b with
  | mk parts =>
    dsimp at h
    subst h
    exact ⟨rfl, rfl, rfl, rfl, rfl, rfl⟩

/-- Witness for C8 on a populated live builder. -/
theorem setter_fail_no_write_witness :
    (⟨.ok ⟨some 1, some 2, none⟩⟩ : Builder Nat Nat Nat Nat).parts =
      .ok ⟨some 1, some 2, none⟩ ∧
    (schemeSet (.error 8) (⟨some 1, some 2, none⟩ : Parts Nat Nat Nat)).1 =
      ⟨some 1, some 2, none⟩ ∧
    (⟨.ok ⟨some 1, some 2, none⟩⟩ : Builder Nat Nat Nat Nat).applyCall
        (.scheme (.error 8)) = ⟨.error 8⟩ :=
  ⟨rfl, (setter_fail_no_write _ _ rfl 8).1, (setter_fail_no_write _ _ rfl 8).2.1⟩

/-- C9: setters are total and never surface an error at the call site.
Every call on every builder state yields a builder whose parts are either
`ok` or `error`, and an `error` can only be the previously latched error
or the conversion error of this very call — nothing escapes and nothing
else is raised. -/
theorem setter_total_latched (b : Builder S A P E) (c : SetterCall S A P E) :
    ((∃ p, (b.applyCall c).parts = .ok p) ∨ (∃ e, (b.applyCall c).parts = .error e)) ∧
    (∀ e, (b.applyCall c).parts = .error e → b.parts = .error e ∨ c.convError = some e) := by
  cases b with
  | mk parts =>
    cases parts with
    | error e0 =>
      rw [applyCall_error _ e0 rfl c]
      exact ⟨.inr ⟨e0, rfl⟩, fun e he => .inl he⟩
    | ok p =>
      cases c with
      | scheme conv =>
        cases conv with
        | error e =>
          refine ⟨.inr ⟨e, rfl⟩, fun e' he' => .inr ?_⟩
          have : e = e' := by simpa using he'
          simp [SetterCall.convError, this]
        | ok s => exact ⟨.inl ⟨_, rfl⟩, fun e' he' => by simp at he'⟩
      | authority conv =>
        cases conv with
        | error e =>
          refine ⟨.inr ⟨e, rfl⟩, fun e' he' => .inr ?_⟩
          have : e = e' := by simpa using he'
          simp [SetterCall.convError, this]
        | ok a => exact ⟨.inl ⟨_, rfl⟩, fun e' he' => by simp at he'⟩
      | path_and_query conv =>
        cases conv with
        | error e =>
          refine ⟨.inr ⟨e, rfl⟩, fun e' he' => .inr ?_⟩
          have : e = e' := by simpa using he'
          simp [SetterCall.convError, this]
        | ok q => exact ⟨.inl ⟨_, rfl⟩, fun e' he' => by simp at he'⟩

/-- Witness for C9: on a live builder a failing authority call returns a
builder (poisoned with that very error), and the latched error is traced
to the call. -/
theorem setter_total_latched_witness :
    ((∃ p, ((⟨.ok ⟨none, none, none⟩⟩ : Builder Nat Nat Nat Nat).applyCall
        (.authority (.error 4))).parts = .ok p) ∨
      (∃ e, ((⟨.ok ⟨none, none, none⟩⟩ : Builder Nat Nat Nat Nat).applyCall
        (.authority (.error 4))).parts = .error e)) ∧
    ((⟨.ok ⟨none, none, none⟩⟩ : Builder Nat Nat Nat Nat).parts = .error 4 ∨
      SetterCall.convError (.authority (.error 4) : SetterCall Nat Nat Nat Nat) = some 4) :=
  ⟨(setter_total_latched ⟨.ok ⟨none, none, none⟩⟩ (.authority (.error 4))).1,
   (setter_total_latched ⟨.ok ⟨none, none, none⟩⟩ (.authority (.error 4))).2 4 rfl⟩

/-- C10: a setter's outcome depends only on its own input.  For any two
Live builders with arbitrary slot contents and the same recorded call,
both results are Live together or Poisoned together, poisoned with the
same error, and on success the targeted slot holds the same converted
value in both. -/
theorem setter_outcome_input_only (b₁ b₂ : Builder S A P E) (p₁ p₂ : Parts S A P)
    (h₁ : b₁.parts = .ok p₁) (h₂ : b₂.parts = .ok p₂) (c : SetterCall S A P E) :
    ((∃ q, (b₁.applyCall c).parts = .ok q) ↔ (∃ q, (b₂.applyCall c).parts = .ok q)) ∧
    (∀ e, (b₁.applyCall c).parts = .error e ↔ (b₂.applyCall c).parts = .error e) ∧
    (∀ q₁ q₂, (b₁.applyCall c).parts = .ok q₁ → (b₂.applyCall c).parts = .ok q₂ →
      SetterCall.storedEq c q₁ q₂) := by
  cases b₁ with
  | mk parts₁ =>
    cases b₂ with
    | mk parts₂ =>
      dsimp at h₁ h₂
      subst h₁
      subst h₂
      cases c with
      | scheme conv =>
        cases conv with
        | error e =>
          refine ⟨by simp, fun e' => by simp, fun q₁ q₂ hq₁ hq₂ => ?_⟩
          simp at hq₁
        | ok s =>
          refine ⟨by simp, fun e' => by simp, fun q₁ q₂ hq₁ hq₂ => ?_⟩
          simp at hq₁ hq₂
          subst hq₁
          subst hq₂
          simp [SetterCall.storedEq]
      | authority conv =>
        cases conv with
        | error e =>
          refine ⟨by simp, fun e' => by simp, fun q₁ q₂ hq₁ hq₂ => ?_⟩
          simp at hq₁
        | ok a =>
          refine ⟨by simp, fun e' => by simp, fun q₁ q₂ hq₁ hq₂ => ?_⟩
          simp at hq₁ hq₂
          subst hq₁
          subst hq₂
          simp [SetterCall.storedEq]
      | path_and_query conv =>
        cases conv with
        | error e =>
          refine ⟨by simp, fun e' => by simp, fun q₁ q₂ hq₁ hq₂ => ?_⟩
          simp at hq₁
        | ok q =>
          refine ⟨by simp, fun e' => by simp, fun q₁ q₂ hq₁ hq₂ => ?_⟩
          simp at hq₁ hq₂
          subst hq₁
          subst hq₂
          simp [SetterCall.storedEq]

/-- Witness for C10: the same successful scheme call on an empty and on a
fully populated builder stores the same scheme value. -/
theorem setter_outcome_input_only_witness :
    (⟨.ok ⟨none, none, none⟩⟩ : Builder Nat Nat Nat Nat).parts = .ok ⟨none, none, none⟩ ∧
    (⟨.ok ⟨some 5, some 6, some 7⟩⟩ : Builder Nat Nat Nat Nat).parts =
      .ok ⟨some 5, some 6, some 7⟩ ∧
    SetterCall.storedEq (.scheme (.ok 3) : SetterCall Nat Nat Nat Nat)
      ⟨some 3, none, none⟩ ⟨some 3, some 6, some 7⟩ :=
  ⟨rfl, rfl,
   (setter_outcome_input_only ⟨.ok ⟨none, none, none⟩⟩ ⟨.ok ⟨some 5, some 6, some 7⟩⟩
     ⟨none, none, none⟩ ⟨some 5, some 6, some 7⟩ rfl rfl (.scheme (.ok 3))).2.2
     ⟨some 3, none, none⟩ ⟨some 3, some 6, some 7⟩ rfl rfl⟩

end UriBuilder
